import Mathlib

/-!
Shallow embedding of the HTML-to-Markdown converter in `HTMLtoMD.hpp`
(ScriptWare-Software/html-to-md).  Wide strings (`std::wstring`) are modelled
as `List Char`; the stack-of-pointers tree builder is modelled as a zipper of
frames; C++ exceptions are modelled by `Except` results.  Recursions that the
C++ performs with a cursor over the input are given an explicit fuel argument
(always instantiated with more fuel than the recursion can consume, so the
fuel branch is unreachable); this keeps every definition computable by kernel
reduction.  `std::vector<ASTNode>` of children is modelled by the list type
`ASTList`, mutually inductive with `ASTNode` so that size and checker
functions can recurse structurally.  The source's narrowing `char c =
html_input[current_index]` is modelled as a full-character comparison
(inputs treated as ASCII-range text; encoding is out of the spec's scope).
-/

/-- Wide strings of the C++ source are modelled as lists of characters. -/
abbrev LC := List Char

/-- Coerce a Lean string literal to the `List Char` model. -/
def str (s : String) : LC := s.data

/-- Model of `std::wstring::find(pattern, pos)` restricted to the suffix that
starts at `pos`: index of the first occurrence of `pat` in `hay`, if any. -/
def findSub (hay pat : LC) : Option Nat :=
  if pat.isPrefixOf hay then some 0
  else
    match hay with
    | [] => none
    | _ :: t => (findSub t pat).map (· + 1)

/-- Characters trimmed by `Trim` in the source: `L" \t\n\r"`. -/
def isTrimWs (c : Char) : Bool :=
  c = ' ' || c = '\t' || c = '\n' || c = '\r'

/-- Model of `Trim`: remove leading and trailing `" \t\n\r"` characters
(`find_first_not_of` / `find_last_not_of` + `substr` in the source). -/
def Trim (s : LC) : LC :=
  ((s.dropWhile isTrimWs).reverse.dropWhile isTrimWs).reverse

/-- Model of `ParseTag`: split a tag body at the first space character into
the tag name and the trimmed raw attribute string. -/
def ParseTag (tag : LC) : LC × LC :=
  match findSub tag [' '] with
  | none => (tag, [])
  | some i => (tag.take i, Trim (tag.drop (i + 1)))

/-- Whitespace recognised by `std::wistringstream` extraction (`operator>>`),
used to split the raw attribute string into tokens. -/
def isStreamWs (c : Char) : Bool :=
  c = ' ' || c = '\t' || c = '\n' || c = '\r' || c = '\x0b' || c = '\x0c'

/-- Split a character list into maximal whitespace-free tokens, as the
`attribute_stream >> attribute` loop of `ParseAttributes` does. -/
def splitWsAux : LC → LC → List LC
  | [], acc => if acc.isEmpty then [] else [acc.reverse]
  | c :: t, acc =>
    if isStreamWs c then
      if acc.isEmpty then splitWsAux t [] else acc.reverse :: splitWsAux t []
    else
      splitWsAux t (c :: acc)

/-- Tokens of the raw attribute string. -/
def splitWs (s : LC) : List LC := splitWsAux s []

/-- Model of `std::map::operator[]` assignment: replace the value of an
existing key, or append the new binding. -/
def insertA (m : List (LC × LC)) (k v : LC) : List (LC × LC) :=
  match m with
  | [] => [(k, v)]
  | (k', v') :: t => if k' = k then (k, v) :: t else (k', v') :: insertA t k v

/-- Model of `std::map::find` / `std::map::at`: value bound to a key. -/
def lookupA (m : List (LC × LC)) (k : LC) : Option LC :=
  match m with
  | [] => none
  | (k', v') :: t => if k' = k then some v' else lookupA t k

/-- Process one `key=value` token of `ParseAttributes`: tokens without `=`
are ignored, a value wrapped in a pair of double quotes loses the quotes
(`substr(1, length-2)`), and assignment overwrites earlier bindings. -/
def parseAttrToken (m : List (LC × LC)) (tok : LC) : List (LC × LC) :=
  match findSub tok ['='] with
  | none => m
  | some i =>
    let key := tok.take i
    let value := tok.drop (i + 1)
    let value :=
      if 2 ≤ value.length ∧ value.head? = some '\"' ∧ value.getLast? = some '\"' then
        (value.drop 1).take (value.length - 2)
      else value
    insertA m key value

/-- Model of `ParseAttributes`: split on stream whitespace and fold the
tokens into an attribute map. -/
def ParseAttributes (attributes : LC) : List (LC × LC) :=
  (splitWs attributes).foldl parseAttrToken []

/-- One entity pass of the parser's text handling, with explicit fuel: scan
left to right; at a match of `pat`, emit `rep` and resume after the match
(the source advances `pos` past the replacement, so the emitted `rep` is
never rescanned by the same pass). -/
def replaceAllF (pat rep : LC) : Nat → LC → LC
  | 0, l => l
  | _, [] => []
  | fuel + 1, c :: t =>
    if pat ≠ [] ∧ pat.isPrefixOf (c :: t) then
      rep ++ replaceAllF pat rep fuel (t.drop (pat.length - 1))
    else
      c :: replaceAllF pat rep fuel t

/-- One entity pass (`while ((pos = text.find(entity.first, pos)) != npos)`
loop of `ParseHTMLToAST`). -/
def replaceAll (pat rep text : LC) : LC := replaceAllF pat rep text.length text

/-- The entity table `html_entities`, written in the insertion order of the
source initializer.  The source stores it in a `std::unordered_map` and
iterates that map, so the order in which the per-entity passes run is
unspecified by C++; definitions below that depend on the order take it as an
explicit parameter. -/
def html_entities : List (LC × LC) :=
  [ (str "&quot;", str "\"")
  , (str "&apos;", str "'")
  , (str "&amp;",  str "&")
  , (str "&lt;",   str "<")
  , (str "&nbsp;", str " ")
  , (str "&gt;",   str ">") ]

/-- Entity decoding of one text run: one `replaceAll` pass per entity, in
the order given by `order`. -/
def decodeEntitiesWith (order : List (LC × LC)) (text : LC) : LC :=
  order.foldl (fun txt e => replaceAll e.1 e.2 txt) text

/-- Entity decoding with the insertion order of the source's initializer
list (one admissible iteration order of the `std::unordered_map`). -/
def decodeEntities (text : LC) : LC := decodeEntitiesWith html_entities text

/-- Node kinds of the AST (`enum ASTNodeType`). -/
inductive ASTNodeType where
  | ROOT
  | TEXT
  | ELEMENT
deriving DecidableEq

mutual
/-- The AST node (`struct ASTNode`): kind, element name, text value,
attribute map and ordered children. -/
inductive ASTNode where
  | mk (type : ASTNodeType) (name : LC) (value : LC)
       (attributes : List (LC × LC)) (children : ASTList)

/-- The `std::vector<ASTNode>` of children, as a list mutually inductive
with `ASTNode`. -/
inductive ASTList where
  | nil
  | cons (hd : ASTNode) (tl : ASTList)
end

/-- Kind of a node. -/
def ASTNode.type : ASTNode → ASTNodeType
  | .mk ty _ _ _ _ => ty

/-- Name of a node. -/
def ASTNode.name : ASTNode → LC
  | .mk _ nm _ _ _ => nm

/-- Text value of a node. -/
def ASTNode.value : ASTNode → LC
  | .mk _ _ v _ _ => v

/-- Attribute map of a node. -/
def ASTNode.attributes : ASTNode → List (LC × LC)
  | .mk _ _ _ a _ => a

/-- Children of a node. -/
def ASTNode.children : ASTNode → ASTList
  | .mk _ _ _ _ cs => cs

/-- Concatenation of child vectors. -/
def ASTList.append : ASTList → ASTList → ASTList
  | .nil, l => l
  | .cons a t, l => .cons a (ASTList.append t l)

/-- Model of `children.push_back(node)`. -/
def ASTList.push (l : ASTList) (n : ASTNode) : ASTList :=
  l.append (.cons n .nil)

mutual
/-- Size of a node (strictly larger than the size of every descendant);
used as the fuel bound of the renderer. -/
def nsize : ASTNode → Nat
  | .mk _ _ _ _ cs => 1 + lsize cs

/-- Total size of a child vector. -/
def lsize : ASTList → Nat
  | .nil => 0
  | .cons a t => nsize a + lsize t
end

/-- Text node constructor used by the parser. -/
def textNode (v : LC) : ASTNode := .mk .TEXT [] v [] .nil

/-- The `skip_tags` vector: tags whose whole span is discarded. -/
def skip_tags : List LC := [str "script", str "style", str "title"]

/-- The `self_closing_tags` set: void tags, never pushed on the stack. -/
def self_closing_tags : List LC :=
  [ str "area", str "base", str "br", str "col", str "command", str "embed"
  , str "hr", str "img", str "input", str "keygen", str "link", str "meta"
  , str "param", str "source", str "track", str "wbr" ]

/-- Failure modes of the parse.  `UnterminatedTag`, `UnterminatedComment`
and `MismatchedTag` model C++ exceptions thrown by `ParseHTMLToAST`.
`StackEmpty` is different: it marks reaching the source's UNDEFINED
BEHAVIOUR — `std::vector::back` on an empty stack, possible only after a
closing tag has popped the root frame — where the real program guarantees
no catchable exception (see `parseLoopF`).  `Fuel` is the unreachable
out-of-fuel result. -/
inductive ParseError where
  | UnterminatedTag
  | UnterminatedComment
  | MismatchedTag
  | StackEmpty
  | Fuel
deriving DecidableEq

/-- An entry of the open-element stack: the node currently under
construction (name, attributes, and the children accumulated so far). -/
structure Frame where
  name : LC
  attributes : List (LC × LC)
  children : ASTList

/-- Completed element node of a popped frame. -/
def frameToNode (f : Frame) : ASTNode :=
  .mk .ELEMENT f.name [] f.attributes f.children

/-- Fold the remaining open frames into the root node, as the tree stands
when the C++ loop reaches end-of-input: every unclosed element is already a
child of its parent, with the children it accumulated. -/
def finishUp : Frame → List Frame → ASTNode
  | f, [] => .mk .ROOT [] [] [] f.children
  | f, g :: gs => finishUp { g with children := g.children.push (frameToNode f) } gs

/-- The scan loop of `ParseHTMLToAST`.  `rest` is the input suffix from
`current_index` on; `cur` is the top of the open-element stack and
`parents` the frames below it (bottom = root frame); `rootClosed` records
that a closing tag has popped the root frame (possible because an
empty-name closing tag such as `</>` matches the root's default-empty
name), in which case the C++ stack is empty: any further stack access is
UNDEFINED BEHAVIOUR in the source — `std::vector::back` on an empty vector,
in practice a crash, with no catchable exception guaranteed.  The model
returns the `StackEmpty` marker there; a `StackEmpty` result therefore
identifies an input on which the source program's behaviour is undefined,
NOT a defined failure the Driver's catch block would turn into passthrough.
Comment and raw-text spans, which touch no stack, are still skipped after
the pop, and end-of-input still returns the root node, as in the source
(both defined behaviour). -/
def parseLoopF : Nat → LC → Frame → List Frame → Bool → Except ParseError ASTNode
  | 0, _, _, _, _ => .error .Fuel
  | _ + 1, [], cur, parents, _ => .ok (finishUp cur parents)
  | fuel + 1, c :: t, cur, parents, rootClosed =>
    if c = '<' then
      match findSub (c :: t) ['>'] with
      | none => .error .UnterminatedTag
      | some e =>
        let tag := ((c :: t).take e).drop 1
        if (str "!--").isPrefixOf tag then
          match findSub (c :: t) (str "-->") with
          | none => .error .UnterminatedComment
          | some i => parseLoopF fuel ((c :: t).drop (i + 3)) cur parents rootClosed
        else if tag ∈ skip_tags then
          match findSub (c :: t) (str "</" ++ tag ++ str ">") with
          | none => .error .UnterminatedTag
          | some i =>
            parseLoopF fuel ((c :: t).drop (i + tag.length + 3)) cur parents rootClosed
        else
          let (is_closing, tag') :=
            match tag with
            | '/' :: r => (true, r)
            | _ => (false, tag)
          let (tag_name, attributes) := ParseTag tag'
          if is_closing then
            if rootClosed then .error .StackEmpty
            else if cur.name ≠ tag_name then .error .MismatchedTag
            else
              match parents with
              | [] => parseLoopF fuel ((c :: t).drop (e + 1)) cur [] true
              | g :: gs =>
                parseLoopF fuel ((c :: t).drop (e + 1))
                  { g with children := g.children.push (frameToNode cur) } gs false
          else
            if rootClosed then .error .StackEmpty
            else
              let attrs := if attributes ≠ [] then ParseAttributes attributes else []
              if tag_name ∈ self_closing_tags then
                parseLoopF fuel ((c :: t).drop (e + 1))
                  { cur with children :=
                      cur.children.push (.mk .ELEMENT tag_name [] attrs .nil) }
                  parents false
              else
                parseLoopF fuel ((c :: t).drop (e + 1))
                  ⟨tag_name, attrs, .nil⟩ (cur :: parents) false
    else
      if rootClosed then .error .StackEmpty
      else
        match findSub (c :: t) ['<'] with
        | none =>
          parseLoopF fuel []
            { cur with children := cur.children.push (textNode (decodeEntities (c :: t))) }
            parents false
        | some i =>
          parseLoopF fuel ((c :: t).drop i)
            { cur with children :=
                cur.children.push (textNode (decodeEntities ((c :: t).take i))) }
            parents false

/-- Model of `ParseHTMLToAST`: run the scan loop from the start of the
input with the root frame as the only open element.  The fuel budget
`length + 1` exceeds the number of loop iterations (each consumes at least
one input character), so the `Fuel` branch is unreachable. -/
def ParseHTMLToAST (html_input : LC) : Except ParseError ASTNode :=
  parseLoopF (html_input.length + 1) html_input ⟨[], [], .nil⟩ [] false

/-- Failure modes of the render (C++ exceptions escaping `AstToMarkdown`):
`MissingAttribute` models `std::map::at` throwing `std::out_of_range`,
`StoiFailure` models `std::stoi` throwing on a non-digit header name;
`Fuel` is the unreachable out-of-fuel result. -/
inductive RenderError where
  | MissingAttribute
  | StoiFailure
  | Fuel
deriving DecidableEq

/-- The `basic_markdown_tags` table: tag name, Markdown opening text,
Markdown closing text (insertion order of the source initializer; the
table is only ever looked up by key, so iteration order is irrelevant). -/
def basic_markdown_tags : List (LC × LC × LC) :=
  [ (str "p", str "\n\n", [])
  , (str "strong", str "**", str "**")
  , (str "b", str "**", str "**")
  , (str "em", str "_", str "_")
  , (str "i", str "_", str "_")
  , (str "del", str "~~", str "~~")
  , (str "ins", str "__", str "__")
  , (str "br", str "\n", [])
  , (str "hr", str "\n\n_________________\n\n", [])
  , (str "form", str "\n\n[form]\n\n", [])
  , (str "blockquote", str "\n> ", []) ]

/-- Lookup in the basic tag table. -/
def lookupTag : List (LC × LC × LC) → LC → Option (LC × LC)
  | [], _ => none
  | (nm, o, c) :: t, k => if nm = k then some (o, c) else lookupTag t k

/-- Cells of one table row: each `td`/`th` cell contributes `|` plus its
rendered content to the row text and one `|---` block to the separator
candidate (the caller keeps the separator only for `thead` rows).
`r` is the renderer applied to a cell (`AstToMarkdown(cell)`). -/
def renderCellsW (r : ASTNode → Except RenderError LC) :
    ASTList → Except RenderError (LC × LC)
  | .nil => .ok ([], [])
  | .cons cell rest =>
    if cell.name = str "td" ∨ cell.name = str "th" then do
      let m ← r cell
      let (rt, sp) ← renderCellsW r rest
      .ok (str "|" ++ m ++ rt, str "|---" ++ sp)
    else renderCellsW r rest

/-- Rows nested under `thead`/`tbody`/`tfoot`: each `tr` child yields its
row text terminated by `|\n` plus, for the `thead` caller, its separator
segment terminated by `|\n`. -/
def renderRowsW (r : ASTNode → Except RenderError LC) :
    ASTList → Except RenderError (LC × LC)
  | .nil => .ok ([], [])
  | .cons row rest =>
    if row.name = str "tr" then do
      let (rt, sp) ← renderCellsW r row.children
      let (rs, sps) ← renderRowsW r rest
      .ok ((rt ++ str "|\n") ++ rs, (sp ++ str "|\n") ++ sps)
    else renderRowsW r rest

/-- One direct child of a `table` element, updating the accumulator
`(caption, header, separator, body, footer)`.  `caption` is assigned
(last one wins), the other four are appended to, as in the source. -/
def tableStep (r : ASTNode → Except RenderError LC)
    (acc : LC × LC × LC × LC × LC) (tc : ASTNode) :
    Except RenderError (LC × LC × LC × LC × LC) :=
  let (cap, hd, sp, bd, ft) := acc
  if tc.name = str "tr" then do
    let (rt, _) ← renderCellsW r tc.children
    .ok (cap, hd, sp, bd ++ rt ++ str "|\n", ft)
  else if tc.name = str "thead" then do
    let (rows, seps) ← renderRowsW r tc.children
    .ok (cap, hd ++ rows, sp ++ seps, bd, ft)
  else if tc.name = str "tbody" then do
    let (rows, _) ← renderRowsW r tc.children
    .ok (cap, hd, sp, bd ++ rows, ft)
  else if tc.name = str "tfoot" then do
    let (rows, _) ← renderRowsW r tc.children
    .ok (cap, hd, sp, bd, ft ++ rows)
  else if tc.name = str "caption" then do
    let m ← r tc
    .ok (str "\n**" ++ m ++ str "**\n", hd, sp, bd, ft)
  else .ok acc

/-- Fold over the direct children of a `table` element. -/
def renderTableW (r : ASTNode → Except RenderError LC)
    (acc : LC × LC × LC × LC × LC) :
    ASTList → Except RenderError (LC × LC × LC × LC × LC)
  | .nil => .ok acc
  | .cons tc rest => do
    let acc' ← tableStep r acc tc
    renderTableW r acc' rest

/-- One child of the `for (auto& child : node.children)` loop of
`AstToMarkdown`.  `r` renders a node as the recursive `AstToMarkdown(child)`
call does (always with the defaulted `list_level = 0`); `pname` is
`node.name`, `pfx` the `list_prefix` of the current invocation, `cnt` the
`counters` vector with its top at the head.  Returns the text contributed by
this child and the updated counters. -/
def renderOneWith (r : ASTNode → Except RenderError LC)
    (pname pfx : LC) (cnt : List Nat) (child : ASTNode) :
    Except RenderError (LC × List Nat) :=
  match child.type with
  | .ROOT => do
    let m ← r child
    .ok (m, cnt)
  | .TEXT => .ok (child.value, cnt)
  | .ELEMENT =>
    if lookupA child.attributes (str "class") = some (str "hidden") then
      .ok ([], cnt)
    else
      match lookupTag basic_markdown_tags child.name with
      | some (o, c) => do
        let m ← r child
        let extra :=
          if child.name = str "p" ∨ child.name = str "hr" ∨ child.name.take 1 = str "h"
          then str "\n" else []
        .ok (o ++ m ++ c ++ extra, cnt)
      | none =>
        if child.name = str "a" then
          match lookupA child.attributes (str "href") with
          | none => .error .MissingAttribute
          | some href => do
            let inner ← r child
            if inner.isEmpty then .ok (href, cnt)
            else .ok (str "[" ++ inner ++ str "](" ++ href ++ str ")", cnt)
        else if child.name = str "li" then
          if pname = str "ol" then do
            let m ← r child
            let n := cnt.headD 1
            .ok (str "\n" ++ pfx ++ Nat.toDigits 10 n ++ str ". " ++ m, (n + 1) :: cnt.tail)
          else do
            let m ← r child
            .ok (str "\n" ++ pfx ++ str "- " ++ m, cnt)
        else if child.name = str "ol" ∨ child.name = str "ul" then do
          -- counters.push_back(1) / pop_back() bracket a recursive call that
          -- does not receive the counters, so they cancel; the local
          -- list_level++/-- pair likewise changes no emitted text, because
          -- list_prefix was computed at entry and the recursive call is made
          -- with the defaulted list_level = 0.
          let m ← r child
          .ok (str "\n" ++ m, cnt)
        else if child.name = str "img" then
          match lookupA child.attributes (str "src") with
          | none => .error .MissingAttribute
          | some src =>
            match lookupA child.attributes (str "alt") with
            | none => .error .MissingAttribute
            | some alt => .ok (str "![" ++ alt ++ str "](" ++ src ++ str ")\n", cnt)
        else if child.name = str "code" then
          if pname ≠ [] ∧ pname ≠ str "pre" then do
            let m ← r child
            .ok (str "```" ++ m ++ str "```\n", cnt)
          else do
            let m ← r child
            .ok (m, cnt)
        else if child.name.take 1 = str "h" ∧ child.name.length = 2 then
          let c2 := (child.name.drop 1).headD ' '
          if c2.isDigit then do
            let m ← r child
            .ok (str "\n" ++ List.replicate (c2.toNat - 48) '#' ++ str " " ++ m ++ str "\n", cnt)
          else .error .StoiFailure
        else if child.name = str "input" then
          match lookupA child.attributes (str "type") with
          | none => .error .MissingAttribute
          | some ty => .ok (str "\n\n[input: " ++ ty ++ str "]\n\n", cnt)
        else if child.name = str "label" then
          match lookupA child.attributes (str "value") with
          | none => .error .MissingAttribute
          | some v => .ok (str "\n\n[label: " ++ v ++ str "]\n\n", cnt)
        else if child.name = str "table" then do
          let (cap, hd, sp, bd, ft) ← renderTableW r ([], [], [], [], []) child.children
          .ok (cap ++ hd ++ sp ++ bd ++ ft, cnt)
        else do
          let m ← r child
          .ok (m, cnt)

/-- The child loop of `AstToMarkdown`, threading the `counters` vector and
concatenating each child's contribution. -/
def renderListWith (r : ASTNode → Except RenderError LC)
    (pname pfx : LC) : List Nat → ASTList → Except RenderError LC
  | _, .nil => .ok []
  | cnt, .cons c rest => do
    let (m, cnt') ← renderOneWith r pname pfx cnt c
    let ms ← renderListWith r pname pfx cnt' rest
    .ok (m ++ ms)

/-- Fuelled model of `AstToMarkdown(node, list_level)`: `list_prefix` is
`list_level` tab characters, `counters` starts as the vector `{1}`, and
every recursive call renders a child with the defaulted `list_level = 0`.
The process-wide `static int counter` of the source is never read by any
logic and is omitted. -/
def renderF : Nat → ASTNode → Nat → Except RenderError LC
  | 0, _, _ => .error .Fuel
  | fuel + 1, node, list_level =>
    renderListWith (fun ch => renderF fuel ch 0)
      node.name (List.replicate list_level '\t') [1] node.children

/-- Model of `AstToMarkdown`.  The fuel `nsize node` exceeds the depth of
any chain of recursive calls, so the `Fuel` branch is unreachable. -/
def AstToMarkdown (node : ASTNode) (list_level : Nat) : Except RenderError LC :=
  renderF (nsize node) node list_level

/-- The fixed tag set of the Driver's HTML-likeness containment check. -/
def driver_tags : List LC :=
  [ str "<html", str "<head", str "<body", str "<div", str "<p", str "<a"
  , str "<img", str "<span", str "<table", str "<tr", str "<td", str "<ul"
  , str "<li", str "<h1", str "<h2", str "<h3", str "<h4", str "<h5", str "<h6"
  , str "</html", str "</head", str "</body", str "</div", str "</p", str "</a"
  , str "</img", str "</span", str "</table", str "</tr", str "</td", str "</ul"
  , str "</li", str "</h1", str "</h2", str "</h3", str "</h4", str "</h5"
  , str "</h6" ]

/-- Model of `ConvertHTMLToMarkdown`: if any driver tag occurs in the input,
attempt parse then render, returning the input unchanged on any failure of
either stage (the C++ `try` block spans both calls); if no driver tag
occurs, return the input unchanged. -/
def ConvertHTMLToMarkdown (html_input : LC) : LC :=
  if driver_tags.any (fun tg => (findSub html_input tg).isSome) then
    match ParseHTMLToAST html_input with
    | .error _ => html_input
    | .ok ast =>
      match AstToMarkdown ast 0 with
      | .error _ => html_input
      | .ok md => md
  else html_input

/-- Check for a successful parse or render result. -/
def exceptOk {ε α : Type} : Except ε α → Bool
  | .ok _ => true
  | .error _ => false

/-- Emptiness test for child vectors. -/
def ASTList.isNil : ASTList → Bool
  | .nil => true
  | .cons _ _ => false

mutual
/-- Checker for the void-element invariant: every element (or other node)
whose name is in the void-tag set has an empty child vector, recursively
throughout the tree. -/
def voidFree : ASTNode → Bool
  | .mk _ nm _ _ cs => (!decide (nm ∈ self_closing_tags) || cs.isNil) && voidFreeL cs

/-- Checker for the void-element invariant on a child vector. -/
def voidFreeL : ASTList → Bool
  | .nil => true
  | .cons a t => voidFree a && voidFreeL t
end

/-- The state invariant of the open-element stack: every frame has a
non-void name and checked accumulated children. -/
def framesOK (cur : Frame) (parents : List Frame) : Prop :=
  ∀ f ∈ cur :: parents, ¬ f.name ∈ self_closing_tags ∧ voidFreeL f.children = true

/-- Extract the tree of a successful parse, with a default. -/
def okOr (d : ASTNode) : Except ParseError ASTNode → ASTNode
  | .ok t => t
  | .error _ => d

/-- Claim C3, counterexample: the input `<div>` leaves the non-void element
`div` unclosed at end-of-input, yet the parse succeeds — the scan loop has
no end-of-input check, it simply folds the remaining open frames into the
root.  The claim says every such parse is a failure. -/
theorem C3_counterexample :
    ParseHTMLToAST (str "<div>") =
      .ok (.mk .ROOT [] [] [] (.cons (.mk .ELEMENT (str "div") [] [] .nil) .nil)) ∧
    exceptOk (ParseHTMLToAST (str "<div>")) = true := by
  exact ⟨by rfl, by rfl⟩

/-- Claim C3, amended: a parse reaching end-of-input with non-void elements
still open succeeds, returning a tree in which each unclosed element is
retained as a child of its parent together with the children it accumulated
(`<div>` alone, and `<div><p>x` with the unclosed `p` holding the text `x`
inside the unclosed `div`). -/
theorem C3_amended :
    ParseHTMLToAST (str "<div>") =
      .ok (.mk .ROOT [] [] [] (.cons (.mk .ELEMENT (str "div") [] [] .nil) .nil)) ∧
    ParseHTMLToAST (str "<div><p>x") =
      .ok (.mk .ROOT [] [] []
        (.cons (.mk .ELEMENT (str "div") [] []
          (.cons (.mk .ELEMENT (str "p") [] []
            (.cons (textNode (str "x")) .nil)) .nil)) .nil)) := by
  exact ⟨by rfl, by rfl⟩

/-- Claim C4, counterexample: with the entity table applied in the order of
the source initializer (`&amp;` before `&lt;`), the text `&amp;lt;` decodes
to `<`: the `&` produced by the `&amp;` pass is re-matched by the later
`&lt;` pass, and the parsed tree holds the text node `<`, not `&lt;`. -/
theorem C4_counterexample :
    decodeEntities (str "&amp;lt;") = str "<" ∧
    decodeEntities (str "&amp;lt;") ≠ str "&lt;" ∧
    ParseHTMLToAST (str "<div>&amp;lt;</div>") =
      .ok (.mk .ROOT [] [] []
        (.cons (.mk .ELEMENT (str "div") [] []
          (.cons (textNode (str "<")) .nil)) .nil)) := by
  exact ⟨by decide, by decide, by rfl⟩

/-- Claim C4, amended: entity decoding is one full left-to-right scan per
entity, run in the (unspecified) iteration order of the entity table; a
pass never re-matches its own replacement text (`&amp;amp;` decodes to
`&amp;`, not `&`), but a pass run later can re-match the output of an
earlier pass: in the initializer order, where `&amp;` precedes `&lt;`,
`&amp;lt;` decodes to `<`, while in the reversed order, where `&amp;` runs
last, it decodes to `&lt;`. -/
theorem C4_amended :
    decodeEntities (str "&amp;amp;") = str "&amp;" ∧
    decodeEntitiesWith html_entities (str "&amp;lt;") = str "<" ∧
    decodeEntitiesWith html_entities.reverse (str "&amp;lt;") = str "&lt;" := by
  exact ⟨by decide, by decide, by decide⟩

/-- Claim C5: rendering the nested list `<ul><li>a<ul><li>b</li></ul></li></ul>`
indents neither item — the output contains no tab at all, because every
recursive `AstToMarkdown(child)` call is made without the `list_level`
argument, so `list_prefix` is computed from the defaulted level 0 in every
invocation.  The claim (and the source's own `list_level++` bracketing)
expects the line for `b` to be one indent unit deeper. -/
theorem C5_no_indentation :
    ConvertHTMLToMarkdown (str "<ul><li>a<ul><li>b</li></ul></li></ul>") =
      str "\n\n- a\n\n- b" ∧
    ¬ '\t' ∈ ConvertHTMLToMarkdown (str "<ul><li>a<ul><li>b</li></ul></li></ul>") := by
  exact ⟨by rfl, by decide⟩

/-- Claim C6, counterexample: converting exactly `<strong>x</strong>`
returns the input unchanged, not `**x**`: no tag of the Driver's
containment check occurs in the input, so parse and render never run. -/
theorem C6_counterexample :
    ConvertHTMLToMarkdown (str "<strong>x</strong>") = str "<strong>x</strong>" ∧
    ConvertHTMLToMarkdown (str "<strong>x</strong>") ≠ str "**x**" := by
  exact ⟨by rfl, by decide⟩

/-- Claim C6, amended: `<strong>x</strong>` contains none of the Driver's
fixed detection tags, so `convert` returns it unchanged; embedded under a
recognized tag the conversion applies, e.g. `<div><strong>x</strong></div>`
converts to `**x**`. -/
theorem C6_amended :
    driver_tags.all (fun tg => (findSub (str "<strong>x</strong>") tg).isNone) = true ∧
    ConvertHTMLToMarkdown (str "<strong>x</strong>") = str "<strong>x</strong>" ∧
    ConvertHTMLToMarkdown (str "<div><strong>x</strong></div>") = str "**x**" := by
  exact ⟨by decide, by rfl, by rfl⟩

/-- Claim C1: the totality/fail-soft claim fails on the code.  The input
`</><div>x` contains `<div`, so the Driver's detection gate fires and the
parse attempt runs; the closing tag `</>` has an empty name, which matches
the default-empty name of the root frame, so the parser pops the root off
the open-element stack; the following `<div>` tag then calls
`std::vector::back()` on an EMPTY stack — undefined behaviour in the
source (in practice an out-of-bounds access or crash, not a
`std::exception` the Driver's catch block could receive).  In the model
this path is the `StackEmpty` marker; reaching it shows `convert` has an
input on which the program's behaviour is undefined, so `convert` is not
total and the parse failure is not converted into returning the input. -/
theorem C1_ub_reachable :
    driver_tags.any (fun tg => (findSub (str "</><div>x") tg).isSome) = true ∧
    ParseHTMLToAST (str "</><div>x") = .error .StackEmpty := by
  exact ⟨by decide, by rfl⟩

/-- Claim C2, counterexample: rendering a tree whose only element is an `a`
node with no attributes and the text child `x` does not substitute an empty
string and continue — it aborts the whole render with a missing-attribute
failure (the modelled `std::map::at` throw), so no output is produced. -/
theorem C2_counterexample :
    AstToMarkdown (.mk .ROOT [] [] []
      (.cons (.mk .ELEMENT (str "a") [] [] (.cons (textNode (str "x")) .nil)) .nil)) 0
      = .error .MissingAttribute ∧
    exceptOk (AstToMarkdown (.mk .ROOT [] [] []
      (.cons (.mk .ELEMENT (str "a") [] [] (.cons (textNode (str "x")) .nil)) .nil)) 0)
      = false := by
  exact ⟨by rfl, by rfl⟩

/-- Claim C2, amended: a missing required attribute aborts the whole render
with a `MissingAttribute` failure instead of degrading to an empty string:
for every attribute map without `href` (and not hidden) and every child
vector, rendering a root whose child is such an `a` element fails; likewise
(concretely) for `img` without `src`/`alt`, `input` without `type` and
`label` without `value`; the Driver converts the failure into returning the
original input unchanged. -/
theorem C2_render_missing_attribute (attrs : List (LC × LC)) (cs : ASTList)
    (hhid : lookupA attrs (str "class") ≠ some (str "hidden"))
    (hhref : lookupA attrs (str "href") = none) :
    AstToMarkdown (.mk .ROOT [] [] []
      (.cons (.mk .ELEMENT (str "a") [] attrs cs) .nil)) 0 = .error .MissingAttribute ∧
    AstToMarkdown (.mk .ROOT [] [] []
      (.cons (.mk .ELEMENT (str "img") [] [] .nil) .nil)) 0 = .error .MissingAttribute ∧
    AstToMarkdown (.mk .ROOT [] [] []
      (.cons (.mk .ELEMENT (str "input") [] [] .nil) .nil)) 0 = .error .MissingAttribute ∧
    AstToMarkdown (.mk .ROOT [] [] []
      (.cons (.mk .ELEMENT (str "label") [] [] .nil) .nil)) 0 = .error .MissingAttribute ∧
    ConvertHTMLToMarkdown (str "<div><a>x</a></div>") = str "<div><a>x</a></div>" := by
  refine ⟨?_, by rfl, by rfl, by rfl, by rfl⟩
  have hsz : nsize (ASTNode.mk .ROOT [] [] []
      (.cons (.mk .ELEMENT (str "a") [] attrs cs) .nil)) = (1 + lsize cs) + 1 := by
    simp [nsize, lsize]; omega
  unfold AstToMarkdown
  rw [hsz]
  simp [str] at hhid hhref
  simp [renderF, renderListWith, renderOneWith, ASTNode.type, ASTNode.name,
    ASTNode.attributes, ASTNode.children, lookupTag, basic_markdown_tags, str,
    hhref, hhid]
  rfl

/-- Claim C2, witness: the amended statement applied at the empty attribute
map and empty child vector, with the Driver-level consequence. -/
theorem C2_witness :
    AstToMarkdown (.mk .ROOT [] [] []
      (.cons (.mk .ELEMENT (str "a") [] [] .nil) .nil)) 0 = .error .MissingAttribute ∧
    ConvertHTMLToMarkdown (str "<div><a>x</a></div>") = str "<div><a>x</a></div>" :=
  ⟨(C2_render_missing_attribute [] .nil (by decide) (by rfl)).1,
   (C2_render_missing_attribute [] .nil (by decide) (by rfl)).2.2.2.2⟩

/-- Claim C7, counterexample: a `code` element rendered directly under the
root (no ancestor element at all) is NOT wrapped in triple backticks — the
root's empty name fails the `!node.name.empty()` test, so the children are
emitted unwrapped, while the claim requires fencing whenever the nearest
ancestor is not `pre`, including the no-ancestor case. -/
theorem C7_counterexample :
    AstToMarkdown (.mk .ROOT [] [] []
      (.cons (.mk .ELEMENT (str "code") [] [] (.cons (textNode (str "x")) .nil)) .nil)) 0
      = .ok (str "x") ∧
    str "x" ≠ str "```x```\n" := by
  exact ⟨by rfl, by decide⟩

/-- Claim C7, amended: a `code` child is fenced in triple backticks with a
trailing newline exactly when the name of its immediate parent node is
nonempty and different from `pre`; under a parent named `pre`, and likewise
under the root (whose name is empty), the children are emitted unwrapped —
shown for the per-child rendering step with an arbitrary child renderer
`r`, and concretely for a root-level `code` element. -/
theorem C7_code_fencing (r : ASTNode → Except RenderError LC)
    (pname pfx : LC) (cnt : List Nat) (v : LC) (attrs : List (LC × LC)) (cs : ASTList)
    (hne : pname ≠ []) (hnp : pname ≠ str "pre")
    (hhid : lookupA attrs (str "class") ≠ some (str "hidden")) :
    (renderOneWith r pname pfx cnt (.mk .ELEMENT (str "code") v attrs cs) =
      (r (.mk .ELEMENT (str "code") v attrs cs)).map
        (fun m => (str "```" ++ m ++ str "```\n", cnt))) ∧
    (renderOneWith r (str "pre") pfx cnt (.mk .ELEMENT (str "code") v attrs cs) =
      (r (.mk .ELEMENT (str "code") v attrs cs)).map (fun m => (m, cnt))) ∧
    (renderOneWith r [] pfx cnt (.mk .ELEMENT (str "code") v attrs cs) =
      (r (.mk .ELEMENT (str "code") v attrs cs)).map (fun m => (m, cnt))) ∧
    AstToMarkdown (.mk .ROOT [] [] []
      (.cons (.mk .ELEMENT (str "code") [] [] (.cons (textNode (str "x")) .nil)) .nil)) 0
      = .ok (str "x") := by
  simp [str] at hhid hnp
  refine ⟨?_, ?_, ?_, by rfl⟩ <;>
  · cases hr : r (.mk .ELEMENT (str "code") v attrs cs) <;>
    · simp [str] at hr
      simp [renderOneWith, ASTNode.type, ASTNode.name, ASTNode.attributes,
        lookupTag, basic_markdown_tags, str, hhid, hne, hnp, hr, Except.map]
      try rfl

/-- Claim C7, witness: the fencing statement applied at a concrete parent
name `div`, concrete renderer, empty attributes and children. -/
theorem C7_witness :
    renderOneWith (fun _ => .ok (str "y")) (str "div") [] [1]
      (.mk .ELEMENT (str "code") [] [] .nil) = .ok (str "```y```\n", [1]) ∧
    AstToMarkdown (.mk .ROOT [] [] []
      (.cons (.mk .ELEMENT (str "code") [] [] (.cons (textNode (str "x")) .nil)) .nil)) 0
      = .ok (str "x") := by
  have h := C7_code_fencing (fun _ => .ok (str "y")) (str "div") [] [1] [] [] .nil
    (by decide) (by decide) (by decide)
  exact ⟨by rw [h.1]; rfl, h.2.2.2⟩

/-- A character that does not occur in a list is not found in it as a
single-character pattern. -/
theorem findSub_single_none (ch : Char) :
    ∀ l : LC, ¬ ch ∈ l → findSub l [ch] = none
  | [], _ => by rfl
  | c :: t, h => by
    have h1 : ch ≠ c := fun hc => h (hc ▸ List.mem_cons_self c t)
    have h2 : ¬ ch ∈ t := fun hm => h (List.mem_cons_of_mem c hm)
    rw [findSub, findSub_single_none ch t h2]
    simp [List.isPrefixOf, h1]

/-- No void tag name ends in a slash. -/
theorem append_slash_not_void (l : LC) : ¬ (l ++ ['/']) ∈ self_closing_tags := by
  intro h
  have h1 : ∀ m ∈ self_closing_tags, m.reverse.head? ≠ some '/' := by decide
  exact h1 _ h (by simp)

/-- Claim C10: XML-style self-closing syntax without a space is not
recognized.  For every tag body `name/` with no space, `ParseTag` keeps the
trailing slash as part of the tag name, and no name ending in a slash is in
the void-tag set (so the element is pushed as an open element);
consequently `<div><br/></div>` fails the parse with a mismatched closing
tag and `convert` returns the input unchanged, whereas `<br />` with a
space parses as the void element `br` with no children and converts via the
`br` rule to a newline. -/
theorem C10_slash_in_tag_name (tagname : LC) (hs : ¬ ' ' ∈ tagname) :
    ParseTag (tagname ++ ['/']) = (tagname ++ ['/'], []) ∧
    ¬ (tagname ++ ['/']) ∈ self_closing_tags ∧
    ParseHTMLToAST (str "<div><br/></div>") = .error .MismatchedTag ∧
    ConvertHTMLToMarkdown (str "<div><br/></div>") = str "<div><br/></div>" ∧
    ParseHTMLToAST (str "<div><br /></div>") =
      .ok (.mk .ROOT [] [] [] (.cons (.mk .ELEMENT (str "div") [] []
        (.cons (.mk .ELEMENT (str "br") [] [] .nil) .nil)) .nil)) ∧
    ConvertHTMLToMarkdown (str "<div><br /></div>") = str "\n" := by
  refine ⟨?_, append_slash_not_void tagname, by rfl, by rfl, by rfl, by rfl⟩
  have hs' : ¬ ' ' ∈ tagname ++ ['/'] := by
    intro hm
    rcases List.mem_append.mp hm with hm | hm
    · exact hs hm
    · simp at hm
  rw [ParseTag, findSub_single_none ' ' _ hs']

/-- Claim C10, witness: the statement applied at the concrete tag name
`br`. -/
theorem C10_witness :
    ParseTag (str "br" ++ ['/']) = (str "br" ++ ['/'], []) ∧
    ¬ (str "br" ++ ['/']) ∈ self_closing_tags ∧
    ConvertHTMLToMarkdown (str "<div><br/></div>") = str "<div><br/></div>" := by
  have h := C10_slash_in_tag_name (str "br") (by decide)
  exact ⟨h.1, h.2.1, h.2.2.2.1⟩

/-- Occurrence search succeeds immediately on a match at the head. -/
theorem findSub_head_match {hay pat : LC} (h : pat.isPrefixOf hay) :
    findSub hay pat = some 0 := by
  rw [findSub.eq_def, if_pos h]

/-- Occurrence search steps over a mismatching head. -/
theorem findSub_cons_miss {c : Char} {t pat : LC}
    (h : ¬ pat.isPrefixOf (c :: t) = true) :
    findSub (c :: t) pat = (findSub t pat).map (· + 1) := by
  rw [findSub, if_neg h]

/-- Occurrence search skips a block of characters that all differ from the
head of the pattern. -/
theorem findSub_append (p0 : Char) (pt s : LC) :
    ∀ l1 : LC, (∀ c ∈ l1, c ≠ p0) →
      findSub (l1 ++ s) (p0 :: pt) = (findSub s (p0 :: pt)).map (· + l1.length)
  | [], _ => by cases h : findSub s (p0 :: pt) <;> simp [h]
  | c :: t, h => by
    have hc : c ≠ p0 := h c (List.mem_cons_self c t)
    have ht : ∀ x ∈ t, x ≠ p0 := fun x hx => h x (List.mem_cons_of_mem c hx)
    have hnp : ¬ (p0 :: pt).isPrefixOf (c :: (t ++ s)) = true := by
      simp [List.isPrefixOf]
      intro h0
      exact absurd h0.symm hc
    rw [List.cons_append, findSub_cons_miss hnp, findSub_append p0 pt s t ht]
    cases h2 : findSub s (p0 :: pt)
    · simp [h2]
    · simp [h2]
      omega

/-- Occurrence search steps over a head that differs from the pattern's
first character. -/
theorem findSub_cons_ne {c p0 : Char} (t pt : LC) (h : c ≠ p0) :
    findSub (c :: t) (p0 :: pt) = (findSub t (p0 :: pt)).map (· + 1) := by
  apply findSub_cons_miss
  simp [List.isPrefixOf]
  intro h0
  exact absurd h0.symm h

/-- A pattern whose head character never occurs in the haystack does not
occur in it at all. -/
theorem findSub_none_of_head_not_mem (p0 : Char) (pt : LC) :
    ∀ l : LC, (∀ c ∈ l, c ≠ p0) → findSub l (p0 :: pt) = none
  | [], _ => by rfl
  | c :: t, h => by
    have hc : c ≠ p0 := h c (List.mem_cons_self c t)
    have ht : ∀ x ∈ t, x ≠ p0 := fun x hx => h x (List.mem_cons_of_mem c hx)
    rw [findSub_cons_ne _ _ hc, findSub_none_of_head_not_mem p0 pt t ht]
    rfl

/-- Raw-text span behaviour for a bare `script` tag. -/
theorem c8aux_script (fuel : Nat) (body rest : LC) (cur : Frame)
    (parents : List Frame) (rc : Bool) (hbody : ∀ c ∈ body, c ≠ '<') :
    parseLoopF (fuel + 1)
        ('<' :: 's' :: 'c' :: 'r' :: 'i' :: 'p' :: 't' :: '>' ::
          (body ++ '<' :: '/' :: 's' :: 'c' :: 'r' :: 'i' :: 'p' :: 't' :: '>' :: rest))
        cur parents rc
      = parseLoopF fuel rest cur parents rc := by
  have h1 : findSub ('<' :: 's' :: 'c' :: 'r' :: 'i' :: 'p' :: 't' :: '>' ::
      (body ++ '<' :: '/' :: 's' :: 'c' :: 'r' :: 'i' :: 'p' :: 't' :: '>' :: rest)) ['>'] = some 7 := by
    rw [findSub_cons_ne _ _ (by decide), findSub_cons_ne _ _ (by decide),
        findSub_cons_ne _ _ (by decide), findSub_cons_ne _ _ (by decide),
        findSub_cons_ne _ _ (by decide), findSub_cons_ne _ _ (by decide),
        findSub_cons_ne _ _ (by decide),
        findSub_head_match (by simp [List.isPrefixOf])]
    rfl
  have h2 : findSub ('<' :: 's' :: 'c' :: 'r' :: 'i' :: 'p' :: 't' :: '>' ::
      (body ++ '<' :: '/' :: 's' :: 'c' :: 'r' :: 'i' :: 'p' :: 't' :: '>' :: rest))
      ('<' :: '/' :: 's' :: 'c' :: 'r' :: 'i' :: 'p' :: 't' ::['>']) = some (body.length + 8) := by
    rw [findSub_cons_miss (by simp [List.isPrefixOf]),
        findSub_cons_ne _ _ (by decide), findSub_cons_ne _ _ (by decide),
        findSub_cons_ne _ _ (by decide), findSub_cons_ne _ _ (by decide),
        findSub_cons_ne _ _ (by decide), findSub_cons_ne _ _ (by decide),
        findSub_cons_ne _ _ (by decide),
        findSub_append '<' _ _ body hbody,
        findSub_head_match (by rw [List.isPrefixOf_iff_prefix]; exact List.prefix_append _ _)]
    simp
  rw [parseLoopF]
  simp [h1, h2, str, skip_tags]

/-- Unterminated raw-text span behaviour for a bare `script` tag. -/
theorem c8aux_script_unterminated (fuel : Nat) (body : LC) (cur : Frame)
    (parents : List Frame) (rc : Bool) (hbody : ∀ c ∈ body, c ≠ '<') :
    parseLoopF (fuel + 1) ('<' :: 's' :: 'c' :: 'r' :: 'i' :: 'p' :: 't' :: '>' :: body) cur parents rc
      = .error .UnterminatedTag := by
  have h1 : findSub ('<' :: 's' :: 'c' :: 'r' :: 'i' :: 'p' :: 't' :: '>' :: body) ['>'] = some 7 := by
    rw [findSub_cons_ne _ _ (by decide), findSub_cons_ne _ _ (by decide),
        findSub_cons_ne _ _ (by decide), findSub_cons_ne _ _ (by decide),
        findSub_cons_ne _ _ (by decide), findSub_cons_ne _ _ (by decide),
        findSub_cons_ne _ _ (by decide),
        findSub_head_match (by simp [List.isPrefixOf])]
    rfl
  have h2 : findSub ('<' :: 's' :: 'c' :: 'r' :: 'i' :: 'p' :: 't' :: '>' :: body)
      ('<' :: '/' :: 's' :: 'c' :: 'r' :: 'i' :: 'p' :: 't' ::['>']) = none := by
    rw [findSub_cons_miss (by simp [List.isPrefixOf]),
        findSub_cons_ne _ _ (by decide), findSub_cons_ne _ _ (by decide),
        findSub_cons_ne _ _ (by decide), findSub_cons_ne _ _ (by decide),
        findSub_cons_ne _ _ (by decide), findSub_cons_ne _ _ (by decide),
        findSub_cons_ne _ _ (by decide),
        findSub_none_of_head_not_mem '<' _ body hbody]
    rfl
  rw [parseLoopF]
  simp [h1, h2, str, skip_tags]

/-- Raw-text span behaviour for a bare `style` tag. -/
theorem c8aux_style (fuel : Nat) (body rest : LC) (cur : Frame)
    (parents : List Frame) (rc : Bool) (hbody : ∀ c ∈ body, c ≠ '<') :
    parseLoopF (fuel + 1)
        ('<' :: 's' :: 't' :: 'y' :: 'l' :: 'e' :: '>' ::
          (body ++ '<' :: '/' :: 's' :: 't' :: 'y' :: 'l' :: 'e' :: '>' :: rest))
        cur parents rc
      = parseLoopF fuel rest cur parents rc := by
  have h1 : findSub ('<' :: 's' :: 't' :: 'y' :: 'l' :: 'e' :: '>' ::
      (body ++ '<' :: '/' :: 's' :: 't' :: 'y' :: 'l' :: 'e' :: '>' :: rest)) ['>'] = some 6 := by
    rw [findSub_cons_ne _ _ (by decide), findSub_cons_ne _ _ (by decide),
        findSub_cons_ne _ _ (by decide), findSub_cons_ne _ _ (by decide),
        findSub_cons_ne _ _ (by decide), findSub_cons_ne _ _ (by decide),
        findSub_head_match (by simp [List.isPrefixOf])]
    rfl
  have h2 : findSub ('<' :: 's' :: 't' :: 'y' :: 'l' :: 'e' :: '>' ::
      (body ++ '<' :: '/' :: 's' :: 't' :: 'y' :: 'l' :: 'e' :: '>' :: rest))
      ('<' :: '/' :: 's' :: 't' :: 'y' :: 'l' ::['e', '>']) = some (body.length + 7) := by
    rw [findSub_cons_miss (by simp [List.isPrefixOf]),
        findSub_cons_ne _ _ (by decide), findSub_cons_ne _ _ (by decide),
        findSub_cons_ne _ _ (by decide), findSub_cons_ne _ _ (by decide),
        findSub_cons_ne _ _ (by decide), findSub_cons_ne _ _ (by decide),
        findSub_append '<' _ _ body hbody,
        findSub_head_match (by rw [List.isPrefixOf_iff_prefix]; exact List.prefix_append _ _)]
    simp
  rw [parseLoopF]
  simp [h1, h2, str, skip_tags]

/-- Unterminated raw-text span behaviour for a bare `style` tag. -/
theorem c8aux_style_unterminated (fuel : Nat) (body : LC) (cur : Frame)
    (parents : List Frame) (rc : Bool) (hbody : ∀ c ∈ body, c ≠ '<') :
    parseLoopF (fuel + 1) ('<' :: 's' :: 't' :: 'y' :: 'l' :: 'e' :: '>' :: body) cur parents rc
      = .error .UnterminatedTag := by
  have h1 : findSub ('<' :: 's' :: 't' :: 'y' :: 'l' :: 'e' :: '>' :: body) ['>'] = some 6 := by
    rw [findSub_cons_ne _ _ (by decide), findSub_cons_ne _ _ (by decide),
        findSub_cons_ne _ _ (by decide), findSub_cons_ne _ _ (by decide),
        findSub_cons_ne _ _ (by decide), findSub_cons_ne _ _ (by decide),
        findSub_head_match (by simp [List.isPrefixOf])]
    rfl
  have h2 : findSub ('<' :: 's' :: 't' :: 'y' :: 'l' :: 'e' :: '>' :: body)
      ('<' :: '/' :: 's' :: 't' :: 'y' :: 'l' ::['e', '>']) = none := by
    rw [findSub_cons_miss (by simp [List.isPrefixOf]),
        findSub_cons_ne _ _ (by decide), findSub_cons_ne _ _ (by decide),
        findSub_cons_ne _ _ (by decide), findSub_cons_ne _ _ (by decide),
        findSub_cons_ne _ _ (by decide), findSub_cons_ne _ _ (by decide),
        findSub_none_of_head_not_mem '<' _ body hbody]
    rfl
  rw [parseLoopF]
  simp [h1, h2, str, skip_tags]

/-- Raw-text span behaviour for a bare `title` tag. -/
theorem c8aux_title (fuel : Nat) (body rest : LC) (cur : Frame)
    (parents : List Frame) (rc : Bool) (hbody : ∀ c ∈ body, c ≠ '<') :
    parseLoopF (fuel + 1)
        ('<' :: 't' :: 'i' :: 't' :: 'l' :: 'e' :: '>' ::
          (body ++ '<' :: '/' :: 't' :: 'i' :: 't' :: 'l' :: 'e' :: '>' :: rest))
        cur parents rc
      = parseLoopF fuel rest cur parents rc := by
  have h1 : findSub ('<' :: 't' :: 'i' :: 't' :: 'l' :: 'e' :: '>' ::
      (body ++ '<' :: '/' :: 't' :: 'i' :: 't' :: 'l' :: 'e' :: '>' :: rest)) ['>'] = some 6 := by
    rw [findSub_cons_ne _ _ (by decide), findSub_cons_ne _ _ (by decide),
        findSub_cons_ne _ _ (by decide), findSub_cons_ne _ _ (by decide),
        findSub_cons_ne _ _ (by decide), findSub_cons_ne _ _ (by decide),
        findSub_head_match (by simp [List.isPrefixOf])]
    rfl
  have h2 : findSub ('<' :: 't' :: 'i' :: 't' :: 'l' :: 'e' :: '>' ::
      (body ++ '<' :: '/' :: 't' :: 'i' :: 't' :: 'l' :: 'e' :: '>' :: rest))
      ('<' :: '/' :: 't' :: 'i' :: 't' :: 'l' ::['e', '>']) = some (body.length + 7) := by
    rw [findSub_cons_miss (by simp [List.isPrefixOf]),
        findSub_cons_ne _ _ (by decide), findSub_cons_ne _ _ (by decide),
        findSub_cons_ne _ _ (by decide), findSub_cons_ne _ _ (by decide),
        findSub_cons_ne _ _ (by decide), findSub_cons_ne _ _ (by decide),
        findSub_append '<' _ _ body hbody,
        findSub_head_match (by rw [List.isPrefixOf_iff_prefix]; exact List.prefix_append _ _)]
    simp
  rw [parseLoopF]
  simp [h1, h2, str, skip_tags]

/-- Unterminated raw-text span behaviour for a bare `title` tag. -/
theorem c8aux_title_unterminated (fuel : Nat) (body : LC) (cur : Frame)
    (parents : List Frame) (rc : Bool) (hbody : ∀ c ∈ body, c ≠ '<') :
    parseLoopF (fuel + 1) ('<' :: 't' :: 'i' :: 't' :: 'l' :: 'e' :: '>' :: body) cur parents rc
      = .error .UnterminatedTag := by
  have h1 : findSub ('<' :: 't' :: 'i' :: 't' :: 'l' :: 'e' :: '>' :: body) ['>'] = some 6 := by
    rw [findSub_cons_ne _ _ (by decide), findSub_cons_ne _ _ (by decide),
        findSub_cons_ne _ _ (by decide), findSub_cons_ne _ _ (by decide),
        findSub_cons_ne _ _ (by decide), findSub_cons_ne _ _ (by decide),
        findSub_head_match (by simp [List.isPrefixOf])]
    rfl
  have h2 : findSub ('<' :: 't' :: 'i' :: 't' :: 'l' :: 'e' :: '>' :: body)
      ('<' :: '/' :: 't' :: 'i' :: 't' :: 'l' ::['e', '>']) = none := by
    rw [findSub_cons_miss (by simp [List.isPrefixOf]),
        findSub_cons_ne _ _ (by decide), findSub_cons_ne _ _ (by decide),
        findSub_cons_ne _ _ (by decide), findSub_cons_ne _ _ (by decide),
        findSub_cons_ne _ _ (by decide), findSub_cons_ne _ _ (by decide),
        findSub_none_of_head_not_mem '<' _ body hbody]
    rfl
  rw [parseLoopF]
  simp [h1, h2, str, skip_tags]

/-- Claim C8, counterexample: an opening tag whose NAME is a raw-text tag
but which carries attributes, e.g. `<script type="a">`, is not discarded:
the skip check compares the entire tag text (attributes included) against
`skip_tags`, so the element is parsed normally, its body becomes a text
node, and the body text DOES appear in the Markdown output. -/
theorem C8_counterexample :
    ParseHTMLToAST (str "<div><script type=\"a\">hit</script></div>") =
      .ok (.mk .ROOT [] [] [] (.cons (.mk .ELEMENT (str "div") [] []
        (.cons (.mk .ELEMENT (str "script") [] [(str "type", str "a")]
          (.cons (textNode (str "hit")) .nil)) .nil)) .nil)) ∧
    ConvertHTMLToMarkdown (str "<div><script type=\"a\">hit</script></div>") = str "hit" := by
  exact ⟨by rfl, by rfl⟩

/-- Claim C8, amended: for every opening tag whose ENTIRE tag text is a
raw-text tag name (`script`, `style`, `title` with no attributes), the
parser discards the whole span — opening tag, any `<`-free body, and the
literal closing tag — without creating any node, and continues after it;
if the literal closing tag is missing, the parse fails with the
unterminated-tag error.  Concretely, `<script>if (a < b) {}</script>`
contributes nothing to the output, and the unterminated form fails. -/
theorem C8_raw_text_spans (fuel : Nat) (body rest : LC) (cur : Frame)
    (parents : List Frame) (rc : Bool) (tagname : LC)
    (hmem : tagname ∈ skip_tags) (hbody : ¬ '<' ∈ body) :
    (parseLoopF (fuel + 1)
        (str "<" ++ tagname ++ str ">" ++ body ++ str "</" ++ tagname ++ str ">" ++ rest)
        cur parents rc
      = parseLoopF fuel rest cur parents rc) ∧
    (parseLoopF (fuel + 1) (str "<" ++ tagname ++ str ">" ++ body) cur parents rc
      = .error .UnterminatedTag) ∧
    ConvertHTMLToMarkdown (str "<div><script>if (a < b) \x7b\x7d</script></div>") = [] ∧
    ParseHTMLToAST (str "<div><script>if (a < b) \x7b\x7d") = .error .UnterminatedTag := by
  have hb : ∀ c ∈ body, c ≠ '<' := fun c hc he => hbody (he ▸ hc)
  refine ⟨?_, ?_, by rfl, by rfl⟩
  · fin_cases hmem
    · simpa [str] using c8aux_script fuel body rest cur parents rc hb
    · simpa [str] using c8aux_style fuel body rest cur parents rc hb
    · simpa [str] using c8aux_title fuel body rest cur parents rc hb
  · fin_cases hmem
    · simpa [str] using c8aux_script_unterminated fuel body cur parents rc hb
    · simpa [str] using c8aux_style_unterminated fuel body cur parents rc hb
    · simpa [str] using c8aux_title_unterminated fuel body cur parents rc hb

/-- Claim C8, witness: the span statement applied at the tag name `script`,
a concrete body and continuation, inside a concrete parser state. -/
theorem C8_witness :
    parseLoopF 31 (str "<script>if (a) x;</script></div>")
      ⟨str "div", [], .nil⟩ [⟨[], [], .nil⟩] false
      = parseLoopF 30 (str "</div>") ⟨str "div", [], .nil⟩ [⟨[], [], .nil⟩] false ∧
    parseLoopF 18 (str "<script>if (a) x;") ⟨[], [], .nil⟩ [] false
      = .error .UnterminatedTag := by
  have h := C8_raw_text_spans 30 (str "if (a) x;") (str "</div>")
    ⟨str "div", [], .nil⟩ [⟨[], [], .nil⟩] false (str "script")
    (by decide) (by decide)
  have h2 := C8_raw_text_spans 17 (str "if (a) x;") []
    ⟨[], [], .nil⟩ [] false (str "script") (by decide) (by decide)
  exact ⟨by simpa [str] using h.1, by simpa [str] using h2.2.1⟩

/-- Appending preserves the void-element checker. -/
theorem voidFreeL_append : ∀ a b : ASTList,
    voidFreeL (a.append b) = (voidFreeL a && voidFreeL b)
  | .nil, b => by simp [ASTList.append, voidFreeL]
  | .cons x t, b => by
    simp [ASTList.append, voidFreeL, voidFreeL_append t b, Bool.and_assoc]

/-- Pushing a checked node onto a checked vector keeps it checked. -/
theorem voidFreeL_push {l : ASTList} {n : ASTNode}
    (hl : voidFreeL l = true) (hn : voidFree n = true) :
    voidFreeL (l.push n) = true := by
  simp [ASTList.push, voidFreeL_append, hl, hn, voidFreeL]

/-- A popped frame with a non-void name and checked children completes to a
checked node. -/
theorem voidFree_frameToNode {f : Frame}
    (hn : ¬ f.name ∈ self_closing_tags) (hc : voidFreeL f.children = true) :
    voidFree (frameToNode f) = true := by
  simp [frameToNode, voidFree, hn, hc]

/-- Text nodes are checked. -/
theorem voidFree_textNode (v : LC) : voidFree (textNode v) = true := by
  simp [textNode, voidFree, voidFreeL, ASTList.isNil, self_closing_tags, str]

/-- Folding the open frames of an invariant-satisfying stack yields a
checked tree. -/
theorem voidFree_finishUp : ∀ (parents : List Frame) (cur : Frame),
    framesOK cur parents → voidFree (finishUp cur parents) = true
  | [], cur, h => by
    have h1 := h cur (List.mem_cons_self _ _)
    simp [finishUp, voidFree, self_closing_tags, str, h1.2]
  | g :: gs, cur, h => by
    have hcur := h cur (List.mem_cons_self _ _)
    have hg := h g (List.mem_cons_of_mem _ (List.mem_cons_self _ _))
    apply voidFree_finishUp gs
    intro f hf
    rcases List.mem_cons.mp hf with rfl | hf
    · exact ⟨hg.1, voidFreeL_push hg.2 (voidFree_frameToNode hcur.1 hcur.2)⟩
    · exact h f (List.mem_cons_of_mem _ (List.mem_cons_of_mem _ hf))

/-- Invariant preservation of the scan loop: from a stack whose frames all
have non-void names and checked children, a successful parse returns a
checked tree. -/
theorem parse_invariant (fuel : Nat) (rest : LC) (cur : Frame)
    (parents : List Frame) (rc : Bool) :
    ∀ t : ASTNode, framesOK cur parents →
      parseLoopF fuel rest cur parents rc = .ok t → voidFree t = true := by
  induction fuel, rest, cur, parents, rc using parseLoopF.induct with
  | case1 x x1 x2 x3 =>
    intro t hinv h
    simp [parseLoopF] at h
  | case2 n cur parents x =>
    intro t hinv h
    rw [parseLoopF] at h
    exact (Except.ok.inj h) ▸ voidFree_finishUp _ _ hinv
  | case3 fuel t cur parents rootClosed h1 =>
    intro t hinv h
    rw [parseLoopF] at h
    simp [h1] at h
  | case4 fuel t cur parents rootClosed i h1 tag h2 h3 =>
    intro t hinv h
    rw [parseLoopF] at h
    simp only [h1, h2, h3, if_pos rfl, if_true] at h
    simp at h
  | case5 fuel t cur parents rootClosed i i1 h1 tag h2 h3 ih =>
    intro t hinv h
    rw [parseLoopF] at h
    simp only [h1, h2, h3, if_pos rfl, if_true] at h
    exact ih t hinv h
  | case6 fuel t cur parents rootClosed i h1 tag h2 h3 h4 =>
    intro t hinv h
    rw [parseLoopF] at h
    simp only [h1, h2, h3, h4, if_pos rfl, if_true, if_neg, if_false] at h
    simp at h
  | case7 fuel t cur parents rootClosed i i1 h1 tag h2 h3 h4 ih =>
    intro t hinv h
    rw [parseLoopF] at h
    simp only [h1, h2, h3, h4, if_pos rfl, if_true, if_neg, if_false] at h
    exact ih t hinv h
  | case8 fuel t cur parents i tag' tag_name attributes hpt h1 tag h2 h3 hmatch =>
    intro t hinv h
    rw [parseLoopF] at h
    simp only [h1, h2, h3, hmatch, hpt, if_pos rfl, if_true, if_neg, if_false] at h
    simp at h
  | case9 fuel t cur parents rootClosed i tag' tag_name attributes hpt hrc hne h1 tag h2 h3 hmatch =>
    intro t hinv h
    rw [parseLoopF] at h
    simp only [h1, h2, h3, hmatch, hpt, hrc, hne, if_pos rfl, if_true, if_neg, if_false] at h
    simp [hne] at h
  | case10 fuel t cur rootClosed i tag' tag_name attributes hpt hrc hne h1 tag h2 h3 hmatch ih =>
    intro t hinv h
    rw [parseLoopF] at h
    simp only [h1, h2, h3, hmatch, hpt, hrc, hne, if_pos rfl, if_true, if_neg, if_false] at h
    exact ih t hinv h
  | case11 fuel t cur rootClosed i tag' tag_name attributes hpt hrc hne g gs h1 tag h2 h3 hmatch ih =>
    intro t hinv h
    rw [parseLoopF] at h
    simp only [h1, h2, h3, hmatch, hpt, hrc, hne, if_pos rfl, if_true, if_neg, if_false] at h
    apply ih t _ h
    intro f hf
    have hcur := hinv cur (List.mem_cons_self _ _)
    have hg := hinv g (List.mem_cons_of_mem _ (List.mem_cons_self _ _))
    rcases List.mem_cons.mp hf with rfl | hf
    · exact ⟨hg.1, voidFreeL_push hg.2 (voidFree_frameToNode hcur.1 hcur.2)⟩
    · exact hinv f (List.mem_cons_of_mem _ (List.mem_cons_of_mem _ hf))
  | case12 fuel t cur parents i is_closing tag' tag_name attributes hpt hic h1 tag h2 h3 hmatch =>
    intro t hinv h
    rw [parseLoopF] at h
    simp only [h1, h2, h3, hmatch, hpt, hic, if_pos rfl, if_true, if_neg, if_false] at h
    simp at h
  | case13 fuel t cur parents rootClosed i is_closing tag' tag_name attributes hpt hic hrc attrs hv h1 tag h2 h3 hmatch ih =>
    intro t hinv h
    rw [parseLoopF] at h
    simp only [h1, h2, h3, hmatch, hpt, hic, hrc, hv, if_pos rfl, if_true, if_neg, if_false] at h
    apply ih t _ h
    intro f hf
    have hcur := hinv cur (List.mem_cons_self _ _)
    rcases List.mem_cons.mp hf with rfl | hf
    · refine ⟨hcur.1, voidFreeL_push hcur.2 ?_⟩
      simp [voidFree, voidFreeL, ASTList.isNil]
    · exact hinv f (List.mem_cons_of_mem _ hf)
  | case14 fuel t cur parents rootClosed i is_closing tag' tag_name attributes hpt hic hrc attrs hnv h1 tag h2 h3 hmatch ih =>
    intro t hinv h
    rw [parseLoopF] at h
    simp only [h1, h2, h3, hmatch, hpt, hic, hrc, hnv, if_pos rfl, if_true, if_neg, if_false] at h
    apply ih t _ h
    intro f hf
    rcases List.mem_cons.mp hf with rfl | hf
    · exact ⟨hnv, by simp [voidFreeL]⟩
    · exact hinv f hf
  | case15 fuel c t cur parents hc =>
    intro t hinv h
    rw [parseLoopF] at h
    simp only [hc, if_pos rfl, if_true, if_neg, if_false] at h
    simp at h
  | case16 fuel c t cur parents rootClosed hc hrc h1 ih =>
    intro t hinv h
    rw [parseLoopF] at h
    simp only [hc, hrc, h1, if_pos rfl, if_true, if_neg, if_false] at h
    apply ih t _ h
    intro f hf
    have hcur := hinv cur (List.mem_cons_self _ _)
    rcases List.mem_cons.mp hf with rfl | hf
    · exact ⟨hcur.1, voidFreeL_push hcur.2 (voidFree_textNode _)⟩
    · exact hinv f (List.mem_cons_of_mem _ hf)
  | case17 fuel c t cur parents rootClosed hc hrc i h1 ih =>
    intro tt hinv h
    rw [parseLoopF] at h
    simp only [hc, hrc, h1, if_pos rfl, if_true, if_neg, if_false] at h
    apply ih tt _ h
    intro f hf
    have hcur := hinv cur (List.mem_cons_self _ _)
    rcases List.mem_cons.mp hf with rfl | hf
    · exact ⟨hcur.1, voidFreeL_push hcur.2 (voidFree_textNode _)⟩
    · exact hinv f (List.mem_cons_of_mem _ hf)

/-- Claim C9: in every tree produced by a successful parse, every node
whose name is in the void-tag set has an empty child vector — the parser
never pushes a void element onto the open-element stack, so no void
element ever acquires children. -/
theorem C9_void_childless (s : LC) (t : ASTNode)
    (h : ParseHTMLToAST s = .ok t) : voidFree t = true := by
  apply parse_invariant (s.length + 1) s ⟨[], [], .nil⟩ [] false t _ h
  intro f hf
  rcases List.mem_cons.mp hf with rfl | hf
  · exact ⟨by decide, rfl⟩
  · cases hf

/-- Claim C9, witness: the invariant evaluated on the parse of a concrete
input that places a text node and a closing tag after a void `br` element:
the tree is checked (in particular the `br` stays childless, the text
becoming its sibling). -/
theorem C9_witness :
    voidFree (okOr (.mk .ROOT [] [] [] .nil)
      (ParseHTMLToAST (str "<div><br>x</div>"))) = true :=
  C9_void_childless (str "<div><br>x</div>")
    (okOr (.mk .ROOT [] [] [] .nil) (ParseHTMLToAST (str "<div><br>x</div>"))) (by rfl)
